import Mathlib

/-!
Verification of the particle animation and scroll-narrative engine of the
migration/deportation visualization (detention_journey.js).

The JavaScript source is shallowly embedded: numbers are exact rationals,
JS objects become structures, the turf distance and map projection
collaborators become oracle function parameters, and per-particle mutation
becomes pure state transformation.
-/

namespace MigrDeport

/-! ## Constants from the source -/

/-- Constant `TRANSFERS_PER_PARTICLE = 50`. -/
def TRANSFERS_PER_PARTICLE : ℕ := 50

/-- Constant `MAX_PARTICLES_PER_ROUTE = 15`. -/
def MAX_PARTICLES_PER_ROUTE : ℕ := 15

/-- Constant `DETENTION_SPEED_FACTOR = 0.005`. -/
def DETENTION_SPEED_FACTOR : ℚ := 5 / 1000

/-- Constant `SEGMENT_ANIMATION_SPEED = 0.02`. -/
def SEGMENT_ANIMATION_SPEED : ℚ := 2 / 100

/-- Constant `SPEED_FACTOR = 0.0009` (particle-flow file). -/
def SPEED_FACTOR : ℚ := 9 / 10000

/-- Constant `PARTICLE_RADIUS = 1.8` (particle-flow file). -/
def PARTICLE_RADIUS : ℚ := 18 / 10

/-! ## Flow records and particle construction -/

/-- JS `Math.ceil(a / b)` on a natural numerator and positive natural
denominator. -/
def jsCeilDiv (a b : ℕ) : ℕ := (a + b - 1) / b

/-- The per-flow particle count from `createDetentionParticles`:
`Math.min(MAX_PARTICLES_PER_ROUTE, Math.max(1, Math.ceil(flow.count / TRANSFERS_PER_PARTICLE)))`. -/
def numParticlesForCount (count : ℕ) : ℕ :=
  min MAX_PARTICLES_PER_ROUTE (max 1 (jsCeilDiv count TRANSFERS_PER_PARTICLE))

/-- A flow endpoint with `lat`, `lon` and `name`. Coordinates are exact
rationals. -/
structure Endpoint where
  lat : ℚ
  lon : ℚ
  name : String
deriving DecidableEq

/-- A detention flow record as read by `createDetentionParticles`; the
endpoints may be absent (checked by the `!flow.origin` guard). -/
structure DetFlow where
  origin : Option Endpoint
  destination : Option Endpoint
  count : ℕ
deriving DecidableEq

/-- A background detention particle (fields pushed at lines 130-138). -/
structure DetParticle where
  flowIndex : ℕ
  distance : ℚ
  progress : ℚ
  speed : ℚ
  startOffset : ℚ
deriving DecidableEq

/-- The particles that `createDetentionParticles` builds for one flow.
Here `dist` is the external `turf.distance` collaborator (kilometres
between two lon-lat pairs).  A JS number is falsy exactly when it is 0 (or
NaN), so the `!origin.lat || ...` guard is the `= 0` test. -/
def detentionParticlesForFlow (dist : ℚ × ℚ → ℚ × ℚ → ℚ) (flowIndex : ℕ)
    (flow : DetFlow) : List DetParticle :=
  match flow.origin, flow.destination with
  | some o, some d =>
    if o.lat = 0 ∨ o.lon = 0 ∨ d.lat = 0 ∨ d.lon = 0 then []
    else if o.lat = d.lat ∧ o.lon = d.lon then []
    else
      let distance := dist (o.lon, o.lat) (d.lon, d.lat)
      if distance < 1 / 10 then []
      else
        let n := numParticlesForCount flow.count
        (List.range n).map fun (p : ℕ) =>
          { flowIndex := flowIndex, distance := distance,
            progress := (p : ℚ) / (n : ℚ), speed := DETENTION_SPEED_FACTOR,
            startOffset := (p : ℚ) / (n : ℚ) }
  | _, _ => []

/-- Function `createDetentionParticles` over the whole flow list. -/
def createDetentionParticles (dist : ℚ × ℚ → ℚ × ℚ → ℚ) (flows : List DetFlow) :
    List DetParticle :=
  (flows.enum).flatMap fun fi => detentionParticlesForFlow dist fi.1 fi.2

/-- Particle color: red for a matching destination, gray otherwise. -/
inductive PColor where
  | red
  | gray
deriving DecidableEq

/-- A flow record as consumed by `createParticles` (already prefiltered by
`loadData`, so both endpoints are present); `scaled_count` may be absent. -/
structure MainFlow where
  origin : Endpoint
  destination : Endpoint
  count : ℕ
  scaled_count : Option ℕ
deriving DecidableEq

/-- A background particle of the main flow animation (fields pushed at
lines 1599-1611). -/
structure Particle where
  flowIndex : ℕ
  particleIndex : ℕ
  distance : ℚ
  progress : ℚ
  speed : ℚ
  startOffset : ℚ
  destinationName : String
  filtered : Bool
  opacity : ℚ
  color : PColor
deriving DecidableEq

/-- JS `flow.scaled_count || 1`: a missing or zero (falsy) value becomes
1. -/
def scaledCountOrOne : Option ℕ → ℕ
  | some k => if k = 0 then 1 else k
  | none => 1

/-- The particles that `createParticles` builds for one flow.  Here `dist`
is the `turf.distance` collaborator and `rnd i` the value that
`Math.random()` returned for particle `i`. -/
def particlesForFlow (dist : ℚ × ℚ → ℚ × ℚ → ℚ) (rnd : ℕ → ℚ) (flowIndex : ℕ)
    (flow : MainFlow) : List Particle :=
  if flow.origin.lat = 0 ∨ flow.origin.lon = 0 ∨
      flow.destination.lat = 0 ∨ flow.destination.lon = 0 then []
  else if flow.origin.lat = flow.destination.lat ∧
      flow.origin.lon = flow.destination.lon then []
  else
    let distance := dist (flow.origin.lon, flow.origin.lat)
      (flow.destination.lon, flow.destination.lat)
    if distance < 1 then []
    else
      let n := scaledCountOrOne flow.scaled_count
      (List.range n).map fun (i : ℕ) =>
        { flowIndex := flowIndex, particleIndex := i, distance := distance,
          progress := 0, speed := SPEED_FACTOR, startOffset := rnd i,
          destinationName := flow.destination.name, filtered := false,
          opacity := 1, color := PColor.red }

/-- Function `createParticles` over the whole flow list; `rnd fi i` is the
`Math.random()` draw for particle `i` of flow `fi`. -/
def createParticles (dist : ℚ × ℚ → ℚ × ℚ → ℚ) (rnd : ℕ → ℕ → ℚ)
    (flows : List MainFlow) : List Particle :=
  (flows.enum).flatMap fun fi => particlesForFlow dist (rnd fi.1) fi.1 fi.2

/-! ## Destination filter (`filterParticlesByDestination`, lines 2339-2364) -/

/-- The three-way filter key: JS `undefined`, JS `null`, or a destination
name string. -/
inductive FilterKey where
  | undef
  | null
  | key (s : String)
deriving DecidableEq

/-- The per-particle mutation of `filterParticlesByDestination`. -/
def applyFilter (k : FilterKey) (p : Particle) : Particle :=
  match k with
  | .undef => { p with filtered := false, opacity := 1, color := PColor.red }
  | .null => { p with filtered := true, opacity := 1 / 5, color := PColor.gray }
  | .key s =>
    if p.destinationName = s then
      { p with filtered := false, opacity := 1, color := PColor.red }
    else
      { p with filtered := true, opacity := 1 / 2, color := PColor.gray }

/-- Function `filterParticlesByDestination` over the particle list. -/
def filterParticlesByDestination (k : FilterKey) (ps : List Particle) :
    List Particle :=
  ps.map (applyFilter k)

/-- The observable visual state of a particle: color, opacity, filtered
flag. -/
def visState (p : Particle) : PColor × ℚ × Bool := (p.color, p.opacity, p.filtered)

/-! ## Per-frame update and rendering (`drawParticles`, lines 1647-1699) -/

/-- One tick of the phase of a particle: `p.progress += p.speed; if
(p.progress >= 1) p.progress = p.startOffset`. -/
def tickProgress (pr sp so : ℚ) : ℚ :=
  if 1 ≤ pr + sp then so else pr + sp

/-- The function `tickProgress` iterated `n` times. -/
def iterTick (sp so : ℚ) : ℕ → ℚ → ℚ
  | 0, pr => pr
  | n + 1, pr => iterTick sp so n (tickProgress pr sp so)

/-- The phase update applied to a whole particle. -/
def tickParticle (p : Particle) : Particle :=
  { p with progress := tickProgress p.progress p.speed p.startOffset }

/-- The function `tickParticle` iterated over `n` frames. -/
def runFrames : ℕ → Particle → Particle
  | 0, p => p
  | n + 1, p => runFrames n (tickParticle p)

/-- The distance along the path at which a visible particle is sampled:
`p.distance * ((p.progress - p.startOffset) / (1 - p.startOffset))`. -/
def sampleDistance (p : Particle) : ℚ :=
  p.distance * ((p.progress - p.startOffset) / (1 - p.startOffset))

/-- A canvas draw command (one `ctx.arc` plus `ctx.fill`). -/
structure DrawCmd where
  x : ℚ
  y : ℚ
  radius : ℚ
  color : PColor
  alpha : ℚ
deriving DecidableEq

/-- The command drawn for a particle at projected pixel `px`; the alpha is
`0.5 * p.opacity`. -/
def mkDrawCmd (p : Particle) (px : ℚ × ℚ) : DrawCmd :=
  { x := px.1, y := px.2, radius := PARTICLE_RADIUS, color := p.color,
    alpha := (1 / 2) * p.opacity }

/-- Per-particle body of `drawParticles`.  Here `proj` is the external
`turf.along` plus `map.project` collaborator; `none` models a thrown
exception, which the source catches for this particle alone. -/
def renderParticle (proj : Particle → ℚ → Option (ℚ × ℚ)) (p : Particle) :
    Particle × Option DrawCmd :=
  let p1 := tickParticle p
  if p1.startOffset ≤ p1.progress then
    match proj p1 (sampleDistance p1) with
    | some px => (p1, some (mkDrawCmd p1 px))
    | none => (p1, none)
  else (p1, none)

/-- One frame of `drawParticles` over the particle list: every particle is
ticked, and the successfully projected visible ones yield draw commands. -/
def drawFrame (proj : Particle → ℚ → Option (ℚ × ℚ)) :
    List Particle → List Particle × List DrawCmd
  | [] => ([], [])
  | p :: ps =>
    ((renderParticle proj p).1 :: (drawFrame proj ps).1,
      ((renderParticle proj p).2).toList ++ (drawFrame proj ps).2)

/-! ## Highlighted person animation (`updateAnimatedPoints`, lines 163-190) -/

/-- The segment and progress state of the animated point of a highlighted
person. -/
structure PointState where
  currentSegment : ℕ
  progress : ℚ
deriving DecidableEq

/-- One update of an animated point along a path of `pathLen` facilities:
progress advances by `SEGMENT_ANIMATION_SPEED`; on completing a segment the
point moves to the next; on passing the final segment it is clamped to
segment `pathLen - 2` at progress 1 and never loops. -/
def updateAnimatedPoint (pathLen : ℕ) (st : PointState) : PointState :=
  let pr := st.progress + SEGMENT_ANIMATION_SPEED
  if 1 ≤ pr then
    if pathLen - 1 ≤ st.currentSegment + 1 then
      { currentSegment := pathLen - 2, progress := 1 }
    else
      { currentSegment := st.currentSegment + 1, progress := 0 }
  else
    { st with progress := pr }

/-- The function `updateAnimatedPoint` iterated over `n` ticks. -/
def runPointUpdates (pathLen : ℕ) : ℕ → PointState → PointState
  | 0, st => st
  | n + 1, st => runPointUpdates pathLen n (updateAnimatedPoint pathLen st)

/-! ## Narrative step exit (`handleStepExit`, lines 2489-2511, and the two
detention scroller exit handlers, lines 858-894) -/

/-- Scroll direction reported by the scrollama step event. -/
inductive ScrollDirection where
  | up
  | down
deriving DecidableEq

/-- A step-exit event: the step index, its DOM class string, and the scroll
direction. -/
structure StepExitEvent where
  index : ℕ
  stepClass : String
  direction : ScrollDirection
deriving DecidableEq

/-- The observable side effects an exit handler can trigger. -/
inductive ExitEffect where
  | addExitingClass
  | flyToDefault
  | fadeOutCards
  | showDataSourcesOverlay
deriving DecidableEq

/-- Whether the first character list is a leading segment of the second. -/
def charListLeads : List Char → List Char → Bool
  | [], _ => true
  | _ :: _, [] => false
  | a :: as, b :: bs => a == b && charListLeads as bs

/-- Whether the first character list occurs contiguously in the second. -/
def charListOccurs (sub : List Char) (l : List Char) : Bool :=
  match l with
  | [] => charListLeads sub []
  | _ :: bs => charListLeads sub l || charListOccurs sub bs

/-- JS `String.prototype.includes`. -/
def strIncludes (s sub : String) : Bool := charListOccurs sub.data s.data

/-- The class-name fragment that marks the terminal interactive step. -/
def interactiveStepClass : String := "interactive-step"

/-- Handler `handleStepExit` of the main scroller: effects fire only when
exiting step 4 downward. -/
def handleStepExit (ev : StepExitEvent) : List ExitEffect :=
  if ev.index = 4 ∧ ev.direction = ScrollDirection.down then
    [ExitEffect.addExitingClass, ExitEffect.flyToDefault, ExitEffect.fadeOutCards]
  else []

/-- The two registered exit handlers of the detention scroller, run in
order: both fire only when exiting the interactive step downward; the
second notifies the external data-sources overlay. -/
def detentionStepExitEffects (ev : StepExitEvent) : List ExitEffect :=
  (if strIncludes ev.stepClass interactiveStepClass = true ∧
      ev.direction = ScrollDirection.down then
    [ExitEffect.addExitingClass, ExitEffect.flyToDefault, ExitEffect.fadeOutCards]
  else []) ++
  (if strIncludes ev.stepClass interactiveStepClass = true ∧
      ev.direction = ScrollDirection.down then
    [ExitEffect.showDataSourcesOverlay]
  else [])

/-! ## Aggregation by destination (`aggregateFlowsByDestination`,
lines 1967-2009) -/

/-- A flow record as read by the aggregation: only names and count matter;
either name may be absent. -/
structure AggFlow where
  originName : Option String
  destName : Option String
  count : ℕ
deriving DecidableEq

/-- JS truthiness of a possibly-missing string: both a missing value and
the empty string are falsy. -/
def truthyStr : Option String → Option String
  | some s => if s = "" then none else some s
  | none => none

/-- Per-destination accumulator with `destination`, `total` and `origins`,
where `origins` is the JS object in key-insertion order. -/
structure DestAgg where
  destination : String
  total : ℕ
  origins : List (String × ℕ)
deriving DecidableEq

/-- JS `origins[originName] = (origins[originName] || 0) + count`,
preserving key insertion order. -/
def bumpAssoc : List (String × ℕ) → String → ℕ → List (String × ℕ)
  | [], key, add => [(key, add)]
  | (k, v) :: rest, key, add =>
    if k = key then (k, v + add) :: rest else (k, v) :: bumpAssoc rest key add

/-- Fold one flow into the accumulator of its destination: add the count to
the total and, when the origin name is truthy, to the tally of that
origin. -/
def applyFlowToDest (f : AggFlow) (e : DestAgg) : DestAgg :=
  let e1 : DestAgg := { e with total := e.total + f.count }
  match truthyStr f.originName with
  | some o => { e1 with origins := bumpAssoc e1.origins o f.count }
  | none => e1

/-- Update (or create at the end, as JS object insertion does) the entry
for destination `d`. -/
def updateDest (f : AggFlow) (d : String) : List DestAgg → List DestAgg
  | [] => [applyFlowToDest f { destination := d, total := 0, origins := [] }]
  | e :: rest =>
    if e.destination = d then applyFlowToDest f e :: rest
    else e :: updateDest f d rest

/-- One step of the aggregation loop over `flows.forEach`: flows without a
truthy destination name are skipped. -/
def aggStep (acc : List DestAgg) (f : AggFlow) : List DestAgg :=
  match truthyStr f.destName with
  | some d => updateDest f d acc
  | none => acc

/-- The grouping pass of `aggregateFlowsByDestination`. -/
def aggregate (flows : List AggFlow) : List DestAgg := flows.foldl aggStep []

/-- The value of `((count / total) * 100).toFixed(1)` expressed in tenths
of a percent (667 stands for the displayed 66.7): round-half-up of
`count * 1000 / total`. -/
def roundedPermille (c total : ℕ) : ℕ := (c * 1000 * 2 + total) / (2 * total)

/-- One displayed origin entry with `name`, `count` and `percentTenths`,
the `toFixed(1)` percentage in tenths of a percent. -/
structure OriginOut where
  name : String
  count : ℕ
  percentTenths : ℕ
deriving DecidableEq

/-- Build the displayed entry for one origin of a destination. -/
def mkOriginOut (total : ℕ) (kv : String × ℕ) : OriginOut :=
  { name := kv.1, count := kv.2, percentTenths := roundedPermille kv.2 total }

/-- Insert into a descending-by-count list, before the first entry with a
count not exceeding the new one (so equal counts keep first-seen order). -/
def insertDesc (a : OriginOut) : List OriginOut → List OriginOut
  | [] => [a]
  | b :: l => if b.count ≤ a.count then a :: b :: l else b :: insertDesc a l

/-- Stable sort descending by count: the order produced by the stable JS
array sort under the comparator `(a, b) => b.count - a.count`. -/
def sortDesc : List OriginOut → List OriginOut
  | [] => []
  | a :: l => insertDesc a (sortDesc l)

/-- A finished aggregation entry with `destination`, `total` and
`top_origins`. -/
structure DestOut where
  destination : String
  total : ℕ
  top_origins : List OriginOut
deriving DecidableEq

/-- Attach the `top_origins` list: map to display entries, sort descending
by count, keep the top 5. -/
def finalizeDest (e : DestAgg) : DestOut :=
  { destination := e.destination, total := e.total,
    top_origins := (sortDesc (e.origins.map (mkOriginOut e.total))).take 5 }

/-- Function `aggregateFlowsByDestination`, as the insertion-ordered entry
list of the JS result object. -/
def aggregateFlowsByDestination (flows : List AggFlow) : List DestOut :=
  (aggregate flows).map finalizeDest

/-- The total recorded for `name` in the final output (0 when absent). -/
def destTotal (l : List DestOut) (name : String) : ℕ :=
  match l.find? (fun e => e.destination = name) with
  | some e => e.total
  | none => 0

/-- The total recorded for `name` in the accumulator (0 when absent). -/
def aggTotal (l : List DestAgg) (name : String) : ℕ :=
  match l.find? (fun e => e.destination = name) with
  | some e => e.total
  | none => 0

/-- The exact sum of the counts of the flows destined to `name`. -/
def sumCounts : List AggFlow → String → ℕ
  | [], _ => 0
  | f :: fs, name =>
    (if truthyStr f.destName = some name then f.count else 0) + sumCounts fs name

/-! ## Concrete data used by the witnesses -/

/-- A concrete particle for the fault-isolation witness. -/
def wParticle (fi : ℕ) : Particle :=
  { flowIndex := fi, particleIndex := 0, distance := 10, progress := 1 / 2,
    speed := 0, startOffset := 0, destinationName := "Mexico",
    filtered := false, opacity := 1, color := PColor.red }

/-- A projector that throws exactly for flow 7. -/
def wProj : Particle → ℚ → Option (ℚ × ℚ) :=
  fun q _ => if q.flowIndex = 7 then none else some (1, 2)

/-- A freshly built particle with `startOffset = 0.99` for the late-spawn
witness. -/
def pW9 : Particle :=
  { flowIndex := 0, particleIndex := 0, distance := 100, progress := 0,
    speed := 1 / 100, startOffset := 99 / 100, destinationName := "Mexico",
    filtered := false, opacity := 1, color := PColor.red }

/-- The three scenario flow records of the aggregation round-trip. -/
def scenarioFlows : List AggFlow :=
  [{ originName := some ("CA"), destName := some ("Mexico"), count := 100 },
   { originName := some ("TX"), destName := some ("Mexico"), count := 50 },
   { originName := some ("CA"), destName := some ("Guatemala"), count := 30 }]

/-- The two tied scenario flow records of the aggregation round-trip. -/
def tieFlows : List AggFlow :=
  [{ originName := some ("CA"), destName := some ("Mexico"), count := 10 },
   { originName := some ("TX"), destName := some ("Mexico"), count := 10 }]

/-- The expected Mexico entry of the aggregation scenario. -/
def mexicoOut : DestOut :=
  { destination := "Mexico", total := 150,
    top_origins := [{ name := "CA", count := 100, percentTenths := 667 },
                    { name := "TX", count := 50, percentTenths := 333 }] }

/-- The expected Guatemala entry of the aggregation scenario. -/
def guatemalaOut : DestOut :=
  { destination := "Guatemala", total := 30,
    top_origins := [{ name := "CA", count := 30, percentTenths := 1000 }] }

/-- The expected single entry of the tied aggregation scenario. -/
def mexicoTieOut : DestOut :=
  { destination := "Mexico", total := 20,
    top_origins := [{ name := "CA", count := 10, percentTenths := 500 },
                    { name := "TX", count := 10, percentTenths := 500 }] }

/-- A concrete coincident flow for the degenerate-flow witness. -/
def wCoincidentFlow : MainFlow :=
  { origin := { lat := 5, lon := 6, name := "O" },
    destination := { lat := 5, lon := 6, name := "D" },
    count := 10, scaled_count := some 3 }

/-- A concrete sub-epsilon detention flow for the degenerate-flow witness. -/
def wShortDetFlow : DetFlow :=
  { origin := some { lat := 5, lon := 6, name := "O" },
    destination := some { lat := 7, lon := 8, name := "D" },
    count := 10 }

/-- A concrete well-formed detention flow for the scaling witness. -/
def wOkDetFlow : DetFlow :=
  { origin := some { lat := 1, lon := 2, name := "A" },
    destination := some { lat := 3, lon := 4, name := "B" },
    count := 120 }

/-- A concrete particle for the filter witness. -/
def wFilterParticle : Particle :=
  { flowIndex := 0, particleIndex := 0, distance := 5, progress := 0,
    speed := SPEED_FACTOR, startOffset := 0, destinationName := "Mexico",
    filtered := false, opacity := 1, color := PColor.red }

/-- A concrete downward exit event of the interactive step. -/
def wDownExit : StepExitEvent :=
  { index := 4, stepClass := "step interactive-step",
    direction := ScrollDirection.down }

/-- A concrete upward exit event of the interactive step. -/
def wUpExit : StepExitEvent :=
  { index := 4, stepClass := "step interactive-step",
    direction := ScrollDirection.up }

/-! ## Theorems -/

theorem jsCeilDiv_mono (b : ℕ) {a₁ a₂ : ℕ} (h : a₁ ≤ a₂) :
    jsCeilDiv a₁ b ≤ jsCeilDiv a₂ b := by
  unfold jsCeilDiv
  exact Nat.div_le_div_right (Nat.sub_le_sub_right (Nat.add_le_add_right h b) 1)

theorem numParticlesForCount_mono {c₁ c₂ : ℕ} (h : c₁ ≤ c₂) :
    numParticlesForCount c₁ ≤ numParticlesForCount c₂ := by
  unfold numParticlesForCount
  exact min_le_min (le_refl _) (max_le_max (le_refl _) (jsCeilDiv_mono _ h))

/-- C1: for every flow record with positive count, the number of particles
constructed for that flow is at least 1, at most `MAX_PARTICLES_PER_ROUTE`,
and monotonic non-decreasing in the count of the flow; the fallback
`scaled_count || 1` of the main builder is likewise at least 1; and for a
flow passing the geometric guards the constructed list has exactly
`numParticlesForCount flow.count` particles. -/
theorem scaling_policy_bounds (count : ℕ) (_hpos : 0 < count) :
    1 ≤ numParticlesForCount count ∧
    numParticlesForCount count ≤ MAX_PARTICLES_PER_ROUTE ∧
    (∀ c₂, count ≤ c₂ → numParticlesForCount count ≤ numParticlesForCount c₂) ∧
    (∀ sc : Option ℕ, 1 ≤ scaledCountOrOne sc) ∧
    ∀ (dist : ℚ × ℚ → ℚ × ℚ → ℚ) (flowIndex : ℕ) (o d : Endpoint),
      ¬(o.lat = 0 ∨ o.lon = 0 ∨ d.lat = 0 ∨ d.lon = 0) →
      ¬(o.lat = d.lat ∧ o.lon = d.lon) →
      ¬(dist (o.lon, o.lat) (d.lon, d.lat) < 1 / 10) →
      (detentionParticlesForFlow dist flowIndex
          { origin := some o, destination := some d, count := count }).length
        = numParticlesForCount count := by
  refine ⟨le_min (by norm_num [MAX_PARTICLES_PER_ROUTE]) (le_max_left 1 _),
    min_le_left _ _, fun c₂ h => numParticlesForCount_mono h, ?_, ?_⟩
  · intro sc
    cases sc with
    | none => exact le_refl 1
    | some k =>
      dsimp only [scaledCountOrOne]
      split
      · exact le_refl 1
      · omega
  · intro dist flowIndex o d h1 h2 h3
    simp only [detentionParticlesForFlow, if_neg h1, if_neg h2, if_neg h3]
    rw [List.length_map, List.length_range]

/-- Concrete instance of `scaling_policy_bounds` at count 120. -/
theorem scaling_policy_bounds_witness :
    0 < 120 ∧
    (detentionParticlesForFlow (fun _ _ => (1 : ℚ)) 0 wOkDetFlow).length
      = numParticlesForCount 120 ∧
    numParticlesForCount 120 = 3 := by
  refine ⟨by decide, ?_, by decide⟩
  exact (scaling_policy_bounds 120 (by decide)).2.2.2.2 (fun _ _ => 1) 0
    { lat := 1, lon := 2, name := "A" } { lat := 3, lon := 4, name := "B" }
    (by norm_num) (by norm_num) (by norm_num)

/-- C6: a flow whose origin and destination coordinates coincide, or whose
separation falls below the short-segment epsilon (1 km in `createParticles`,
0.1 km in `createDetentionParticles`), produces zero particles: the flow is
excluded from the particle list entirely. -/
theorem degenerate_flow_zero_particles (dist : ℚ × ℚ → ℚ × ℚ → ℚ) :
    (∀ (rnd : ℕ → ℚ) (fi : ℕ) (flow : MainFlow),
      ((flow.origin.lat = flow.destination.lat ∧
          flow.origin.lon = flow.destination.lon) ∨
        dist (flow.origin.lon, flow.origin.lat)
          (flow.destination.lon, flow.destination.lat) < 1) →
      particlesForFlow dist rnd fi flow = []) ∧
    (∀ (fi : ℕ) (o d : Endpoint) (count : ℕ),
      ((o.lat = d.lat ∧ o.lon = d.lon) ∨
        dist (o.lon, o.lat) (d.lon, d.lat) < 1 / 10) →
      detentionParticlesForFlow dist fi
        { origin := some o, destination := some d, count := count } = []) := by
  constructor
  · intro rnd fi flow h
    by_cases h1 : flow.origin.lat = 0 ∨ flow.origin.lon = 0 ∨
        flow.destination.lat = 0 ∨ flow.destination.lon = 0
    · simp [particlesForFlow, h1]
    · rcases h with hco | hd
      · simp [particlesForFlow, h1, hco.1, hco.2]
      · by_cases h2 : flow.origin.lat = flow.destination.lat ∧
            flow.origin.lon = flow.destination.lon
        · simp [particlesForFlow, h1, h2.1, h2.2]
        · simp [particlesForFlow, h1, h2, hd]
  · intro fi o d count h
    by_cases h1 : o.lat = 0 ∨ o.lon = 0 ∨ d.lat = 0 ∨ d.lon = 0
    · simp [detentionParticlesForFlow, h1]
    · rcases h with hco | hd
      · simp [detentionParticlesForFlow, h1, hco.1, hco.2]
      · by_cases h2 : o.lat = d.lat ∧ o.lon = d.lon
        · simp [detentionParticlesForFlow, h1, h2.1, h2.2]
        · simp [detentionParticlesForFlow, h1, h2]
          intro hle
          rw [one_div] at hd
          exact absurd hd (not_lt.mpr hle)

/-- Concrete instances: a coincident flow and a sub-epsilon flow each yield
an empty particle list. -/
theorem degenerate_flow_zero_particles_witness :
    particlesForFlow (fun _ _ => (0 : ℚ)) (fun _ => 0) 0 wCoincidentFlow = [] ∧
    detentionParticlesForFlow (fun _ _ => (0 : ℚ)) 0 wShortDetFlow = [] := by
  constructor
  · exact (degenerate_flow_zero_particles (fun _ _ => 0)).1 (fun _ => 0) 0
      wCoincidentFlow (Or.inl ⟨rfl, rfl⟩)
  · exact (degenerate_flow_zero_particles (fun _ _ => 0)).2 0
      { lat := 5, lon := 6, name := "O" } { lat := 7, lon := 8, name := "D" }
      10 (Or.inr (by norm_num))

theorem applyFilter_destinationName (k : FilterKey) (p : Particle) :
    (applyFilter k p).destinationName = p.destinationName := by
  cases k with
  | undef => rfl
  | null => rfl
  | key s => simp only [applyFilter]; split <;> rfl

theorem applyFilter_idem (k : FilterKey) (p : Particle) :
    applyFilter k (applyFilter k p) = applyFilter k p := by
  cases k with
  | undef => rfl
  | null => rfl
  | key s =>
    by_cases h : p.destinationName = s
    · simp [applyFilter, h]
    · simp [applyFilter, h]

/-- C4: the filter has three-way semantics: `undefined` restores the
default unfiltered state (red, full opacity), `null` puts every particle in
an explicit faded no-match state, and a string key emphasises exactly the
particles whose destination name equals the key; for a non-matching
particle the three resulting visual states are pairwise different. -/
theorem filter_three_way_semantics (p : Particle) (s : String)
    (hne : p.destinationName ≠ s) :
    visState (applyFilter FilterKey.undef p) = (PColor.red, 1, false) ∧
    visState (applyFilter FilterKey.null p) = (PColor.gray, 1 / 5, true) ∧
    (∀ q : Particle, visState (applyFilter (FilterKey.key s) q) =
      if q.destinationName = s then (PColor.red, 1, false)
      else (PColor.gray, 1 / 2, true)) ∧
    visState (applyFilter FilterKey.undef p) ≠
      visState (applyFilter FilterKey.null p) ∧
    visState (applyFilter FilterKey.undef p) ≠
      visState (applyFilter (FilterKey.key s) p) ∧
    visState (applyFilter FilterKey.null p) ≠
      visState (applyFilter (FilterKey.key s) p) := by
  refine ⟨rfl, rfl, ?_, ?_, ?_, ?_⟩
  · intro q
    by_cases h : q.destinationName = s
    · simp [visState, applyFilter, h]
    · simp [visState, applyFilter, h]
  · simp [visState, applyFilter]
  · simp [visState, applyFilter, hne]
  · simp [visState, applyFilter, hne]

/-- Concrete instance of `filter_three_way_semantics` for a particle whose
destination does not match the key. -/
theorem filter_three_way_semantics_witness :
    wFilterParticle.destinationName ≠ "Guatemala" ∧
    visState (applyFilter FilterKey.undef wFilterParticle) =
      (PColor.red, 1, false) := by
  refine ⟨by decide, ?_⟩
  exact (filter_three_way_semantics wFilterParticle "Guatemala" (by decide)).1

/-- C5: applying the destination filter twice with the same key (string,
null, or undefined) leaves every particle identical to applying it once. -/
theorem filter_apply_idempotent (k : FilterKey) (ps : List Particle) :
    filterParticlesByDestination k (filterParticlesByDestination k ps) =
      filterParticlesByDestination k ps := by
  induction ps with
  | nil => rfl
  | cons p t ih =>
    simp only [filterParticlesByDestination, List.map_cons] at ih ⊢
    rw [applyFilter_idem, ih]

theorem renderParticle_fst (proj : Particle → ℚ → Option (ℚ × ℚ))
    (p : Particle) : (renderParticle proj p).1 = tickParticle p := by
  dsimp only [renderParticle]
  split
  · split <;> rfl
  · rfl

theorem drawFrame_fst (proj : Particle → ℚ → Option (ℚ × ℚ))
    (ps : List Particle) : (drawFrame proj ps).1 = ps.map tickParticle := by
  induction ps with
  | nil => rfl
  | cons p t ih =>
    simp only [drawFrame, List.map_cons, renderParticle_fst]
    rw [ih]

theorem drawFrame_snd_append (proj : Particle → ℚ → Option (ℚ × ℚ))
    (ps qs : List Particle) :
    (drawFrame proj (ps ++ qs)).2 = (drawFrame proj ps).2 ++ (drawFrame proj qs).2 := by
  induction ps with
  | nil => rfl
  | cons p t ih =>
    simp only [List.cons_append, drawFrame, List.append_assoc]
    exact congrArg (fun l => (renderParticle proj p).2.toList ++ l) ih

/-- C2: a tick that makes progress reach or exceed 1 resets it to
`startOffset` (not to 0); the post-check progress is always below 1; and
from any post-wrap state (progress between `startOffset` inclusive and 1
exclusive) every further number of ticks keeps progress in the same
interval. -/
theorem progress_wrap_invariant (sp so pr : ℚ)
    (_hso0 : 0 ≤ so) (hso1 : so < 1) (hsp : 0 ≤ sp)
    (hlo : so ≤ pr) (hhi : pr < 1) :
    (∀ q : ℚ, 1 ≤ q + sp → tickProgress q sp so = so) ∧
    (∀ q : ℚ, tickProgress q sp so < 1) ∧
    (∀ n : ℕ, so ≤ iterTick sp so n pr ∧ iterTick sp so n pr < 1) := by
  have key : ∀ q : ℚ, so ≤ q → q < 1 →
      so ≤ tickProgress q sp so ∧ tickProgress q sp so < 1 := by
    intro q h1 h2
    by_cases hq : 1 ≤ q + sp
    · simp only [tickProgress, if_pos hq]
      exact ⟨le_refl so, hso1⟩
    · simp only [tickProgress, if_neg hq]
      exact ⟨le_trans h1 (le_add_of_nonneg_right hsp), not_le.mp hq⟩
  refine ⟨fun q hq => if_pos hq, ?_, ?_⟩
  · intro q
    by_cases hq : 1 ≤ q + sp
    · simp only [tickProgress, if_pos hq]
      exact hso1
    · simp only [tickProgress, if_neg hq]
      exact not_le.mp hq
  · have main : ∀ (n : ℕ) (q : ℚ), so ≤ q → q < 1 →
        so ≤ iterTick sp so n q ∧ iterTick sp so n q < 1 := by
      intro n
      induction n with
      | zero => exact fun q h1 h2 => ⟨h1, h2⟩
      | succ n ih =>
        intro q h1 h2
        have h := key q h1 h2
        exact ih (tickProgress q sp so) h.1 h.2
    exact fun n => main n pr hlo hhi

/-- Concrete instance of `progress_wrap_invariant` with speed 1/2, start
offset 1/4, three ticks from the post-wrap state. -/
theorem progress_wrap_invariant_witness :
    (0 : ℚ) ≤ 1 / 4 ∧ (1 / 4 : ℚ) < 1 ∧ (0 : ℚ) ≤ 1 / 2 ∧
    ((1 / 4 : ℚ) ≤ iterTick (1 / 2) (1 / 4) 3 (1 / 4) ∧
      iterTick (1 / 2) (1 / 4) 3 (1 / 4) < 1) := by
  refine ⟨by norm_num, by norm_num, by norm_num, ?_⟩
  exact (progress_wrap_invariant (1 / 2) (1 / 4) (1 / 4) (by norm_num)
    (by norm_num) (by norm_num) (le_refl _) (by norm_num)).2.2 3

/-- C7: a projection failure for one particle is caught per-particle: the
frame still updates every particle (the updated list never depends on the
projector failures), a failing particle only drops its own draw command
while the commands of all other particles survive, and the stored state of
the failed particle is identical to that of a succeeding one, so the next
frame retries it. -/
theorem render_fault_isolation (proj proj2 : Particle → ℚ → Option (ℚ × ℚ))
    (ps ps1 ps2 : List Particle) (p : Particle) :
    (drawFrame proj ps).1 = ps.map tickParticle ∧
    (renderParticle proj p).1 = (renderParticle proj2 p).1 ∧
    ((renderParticle proj p).2 = none →
      (drawFrame proj (ps1 ++ p :: ps2)).2 =
        (drawFrame proj ps1).2 ++ (drawFrame proj ps2).2) := by
  refine ⟨drawFrame_fst proj ps, ?_, ?_⟩
  · rw [renderParticle_fst, renderParticle_fst]
  · intro hnone
    rw [drawFrame_snd_append]
    show (drawFrame proj ps1).2 ++
      ((renderParticle proj p).2.toList ++ (drawFrame proj ps2).2) = _
    rw [hnone]
    rfl

/-- Concrete instance of `render_fault_isolation`: the projection of flow 7
throws, its command is dropped, and the two neighbouring particles are
still drawn. -/
theorem render_fault_isolation_witness :
    (renderParticle wProj (wParticle 7)).2 = none ∧
    (drawFrame wProj [wParticle 0, wParticle 7, wParticle 1]).2 =
      (drawFrame wProj [wParticle 0]).2 ++ (drawFrame wProj [wParticle 1]).2 ∧
    (drawFrame wProj [wParticle 0, wParticle 7, wParticle 1]).2.length = 2 := by
  have hnone : (renderParticle wProj (wParticle 7)).2 = none := by
    norm_num [renderParticle, tickParticle, tickProgress, wParticle, wProj,
      sampleDistance]
  refine ⟨hnone, ?_, ?_⟩
  swap
  · norm_num [drawFrame, renderParticle, tickParticle, tickProgress,
      wParticle, wProj, sampleDistance, mkDrawCmd]
  exact (render_fault_isolation wProj wProj [] [wParticle 0] [wParticle 1]
    (wParticle 7)).2.2 hnone

theorem runFrames_succ_comm (n : ℕ) (p : Particle) :
    runFrames (n + 1) p = tickParticle (runFrames n p) := by
  induction n generalizing p with
  | zero => rfl
  | succ n ih =>
    show runFrames (n + 1) (tickParticle p) = tickParticle (runFrames (n + 1) p)
    rw [ih (tickParticle p)]
    rfl

theorem renderParticle_snd_of_invisible (proj : Particle → ℚ → Option (ℚ × ℚ))
    (q : Particle) (h : (tickParticle q).progress < (tickParticle q).startOffset) :
    (renderParticle proj q).2 = none := by
  dsimp only [renderParticle]
  rw [if_neg (not_le.mpr h)]

theorem renderParticle_snd_of_visible (proj : Particle → ℚ → Option (ℚ × ℚ))
    (q : Particle) (h : (tickParticle q).startOffset ≤ (tickParticle q).progress) :
    (renderParticle proj q).2 =
      Option.map (mkDrawCmd (tickParticle q))
        (proj (tickParticle q) (sampleDistance (tickParticle q))) := by
  dsimp only [renderParticle]
  rw [if_pos h]
  cases proj (tickParticle q) (sampleDistance (tickParticle q)) <;> rfl

/-- C9: a particle is drawn only when its post-tick progress has reached
its `startOffset`, and when drawn it is sampled at the distance
`normalized * length` with `normalized = (progress - startOffset) / (1 -
startOffset)`; a freshly built particle with `startOffset = 0.99` yields no
draw command on any of the first `n` frames while `n * speed < 0.99`. -/
theorem draw_gating_late_spawn (proj : Particle → ℚ → Option (ℚ × ℚ))
    (p : Particle) (s : ℚ) (n : ℕ)
    (hp : p.progress = 0) (hs : p.speed = s) (hso : p.startOffset = 99 / 100)
    (hs0 : 0 ≤ s) (hn : (n : ℚ) * s < 99 / 100) :
    (∀ q : Particle, (tickParticle q).progress < (tickParticle q).startOffset →
      (renderParticle proj q).2 = none) ∧
    (∀ q : Particle, (tickParticle q).startOffset ≤ (tickParticle q).progress →
      (renderParticle proj q).2 =
        Option.map (mkDrawCmd (tickParticle q))
          (proj (tickParticle q) (sampleDistance (tickParticle q)))) ∧
    (∀ k : ℕ, k < n →
      (runFrames (k + 1) p).progress = ((k + 1 : ℕ) : ℚ) * s ∧
      (renderParticle proj (runFrames k p)).2 = none) := by
  have hprog : ∀ k : ℕ, k ≤ n →
      (runFrames k p).progress = (k : ℚ) * s ∧
      (runFrames k p).startOffset = 99 / 100 ∧
      (runFrames k p).speed = s := by
    intro k
    induction k with
    | zero =>
      intro _
      simp [runFrames, hp, hso, hs]
    | succ k ih =>
      intro hk
      obtain ⟨hpr, hof, hsp⟩ := ih (Nat.le_of_succ_le hk)
      have hcast : ((k : ℚ) + 1) * s ≤ (n : ℚ) * s := by
        have : ((k : ℚ) + 1) ≤ (n : ℚ) := by exact_mod_cast hk
        exact mul_le_mul_of_nonneg_right this hs0
      have hlt1 : (k : ℚ) * s + s < 1 := by nlinarith
      rw [runFrames_succ_comm]
      refine ⟨?_, hof, hsp⟩
      show tickProgress (runFrames k p).progress (runFrames k p).speed
        (runFrames k p).startOffset = _
      rw [hpr, hsp, hof, tickProgress, if_neg (by linarith)]
      push_cast
      ring
  refine ⟨renderParticle_snd_of_invisible proj, renderParticle_snd_of_visible proj, ?_⟩
  intro k hk
  obtain ⟨hpr1, hof1, _⟩ := hprog (k + 1) hk
  obtain ⟨hpr0, hof0, hsp0⟩ := hprog k (Nat.le_of_lt hk)
  have hticked : (tickParticle (runFrames k p)).progress = ((k + 1 : ℕ) : ℚ) * s := by
    rw [← runFrames_succ_comm]
    exact hpr1
  have hof2 : (tickParticle (runFrames k p)).startOffset = 99 / 100 := hof0
  refine ⟨hpr1, renderParticle_snd_of_invisible proj _ ?_⟩
  rw [hticked, hof2]
  have hcast : ((k : ℚ) + 1) * s ≤ (n : ℚ) * s := by
    have : ((k : ℚ) + 1) ≤ (n : ℚ) := by exact_mod_cast hk
    exact mul_le_mul_of_nonneg_right this hs0
  push_cast
  nlinarith

/-- Concrete instance of `draw_gating_late_spawn`: with speed 1/100 the
0.99-offset particle is still undrawn at frame 11 of its first cycle. -/
theorem draw_gating_late_spawn_witness :
    pW9.progress = 0 ∧ pW9.speed = 1 / 100 ∧ pW9.startOffset = 99 / 100 ∧
    (0 : ℚ) ≤ 1 / 100 ∧ ((50 : ℕ) : ℚ) * (1 / 100) < 99 / 100 ∧
    (renderParticle (fun _ _ => some (0, 0)) (runFrames 10 pW9)).2 = none := by
  refine ⟨rfl, rfl, rfl, by norm_num, by norm_num, ?_⟩
  exact ((draw_gating_late_spawn (fun _ _ => some (0, 0)) pW9 (1 / 100) 50
    rfl rfl rfl (by norm_num) (by norm_num)).2.2 10 (by norm_num)).2

/-- C10: the animated point of a highlighted person never wraps back to the
start: the completed state (last segment `pathLen - 2`, progress 1) is a
fixed point of every further update, and from any state within the path the
segment index never exceeds `pathLen - 2` (so it never resets after
completion). -/
theorem animated_point_no_loop (pathLen : ℕ) (hlen : 2 ≤ pathLen) :
    (updateAnimatedPoint pathLen { currentSegment := pathLen - 2, progress := 1 } =
      { currentSegment := pathLen - 2, progress := 1 }) ∧
    (∀ n : ℕ, runPointUpdates pathLen n
        { currentSegment := pathLen - 2, progress := 1 } =
      { currentSegment := pathLen - 2, progress := 1 }) ∧
    (∀ st : PointState, st.currentSegment ≤ pathLen - 2 →
      (updateAnimatedPoint pathLen st).currentSegment ≤ pathLen - 2) ∧
    (∀ (n : ℕ) (st : PointState), st.currentSegment ≤ pathLen - 2 →
      (runPointUpdates pathLen n st).currentSegment ≤ pathLen - 2) := by
  have hfix : updateAnimatedPoint pathLen
      { currentSegment := pathLen - 2, progress := 1 } =
      { currentSegment := pathLen - 2, progress := 1 } := by
    have h1 : (1 : ℚ) ≤ 1 + SEGMENT_ANIMATION_SPEED := by
      norm_num [SEGMENT_ANIMATION_SPEED]
    have h2 : pathLen - 1 ≤ pathLen - 2 + 1 := by omega
    simp only [updateAnimatedPoint, if_pos h1, if_pos h2]
  have hstep : ∀ st : PointState, st.currentSegment ≤ pathLen - 2 →
      (updateAnimatedPoint pathLen st).currentSegment ≤ pathLen - 2 := by
    intro st hst
    dsimp only [updateAnimatedPoint]
    by_cases hpr : (1 : ℚ) ≤ st.progress + SEGMENT_ANIMATION_SPEED
    · rw [if_pos hpr]
      by_cases hseg : pathLen - 1 ≤ st.currentSegment + 1
      · rw [if_pos hseg]
      · rw [if_neg hseg]
        show st.currentSegment + 1 ≤ pathLen - 2
        omega
    · rw [if_neg hpr]
      exact hst
  refine ⟨hfix, ?_, hstep, ?_⟩
  · intro n
    induction n with
    | zero => rfl
    | succ n ih =>
      show runPointUpdates pathLen n (updateAnimatedPoint pathLen
        { currentSegment := pathLen - 2, progress := 1 }) = _
      rw [hfix]
      exact ih
  · intro n
    induction n with
    | zero => exact fun st hst => hst
    | succ n ih =>
      intro st hst
      exact ih (updateAnimatedPoint pathLen st) (hstep st hst)

/-- Concrete instance of `animated_point_no_loop` on a 3-facility path. -/
theorem animated_point_no_loop_witness :
    2 ≤ 3 ∧
    runPointUpdates 3 4 { currentSegment := 1, progress := 1 } =
      { currentSegment := 1, progress := 1 } ∧
    (runPointUpdates 3 4 { currentSegment := 0, progress := 0 }).currentSegment ≤ 1 := by
  refine ⟨by decide, ?_, ?_⟩
  · exact (animated_point_no_loop 3 (by decide)).2.1 4
  · exact (animated_point_no_loop 3 (by decide)).2.2.2 4
      { currentSegment := 0, progress := 0 } (by decide)

/-- C8: exiting the terminal interactive step while scrolling downward
triggers the end-of-section effects (reverse camera transition and the
external data-sources notification); exiting it while scrolling upward
triggers no effect at all, in both scrollers. -/
theorem terminal_step_exit_direction (ev : StepExitEvent) :
    (ev.index = 4 → ev.direction = ScrollDirection.down →
      ExitEffect.flyToDefault ∈ handleStepExit ev ∧
      ExitEffect.addExitingClass ∈ handleStepExit ev) ∧
    (ev.direction = ScrollDirection.up → handleStepExit ev = []) ∧
    (strIncludes ev.stepClass interactiveStepClass = true →
      ev.direction = ScrollDirection.down →
      ExitEffect.flyToDefault ∈ detentionStepExitEffects ev ∧
      ExitEffect.showDataSourcesOverlay ∈ detentionStepExitEffects ev) ∧
    (ev.direction = ScrollDirection.up → detentionStepExitEffects ev = []) := by
  refine ⟨?_, ?_, ?_, ?_⟩
  · intro hi hd
    simp [handleStepExit, hi, hd]
  · intro hu
    have hnd : ¬ ev.direction = ScrollDirection.down := by
      rw [hu]
      exact fun h => ScrollDirection.noConfusion h
    simp [handleStepExit, hnd]
  · intro hc hd
    simp [detentionStepExitEffects, hc, hd]
  · intro hu
    have hnd : ¬ ev.direction = ScrollDirection.down := by
      rw [hu]
      exact fun h => ScrollDirection.noConfusion h
    simp [detentionStepExitEffects, hnd]

/-- Concrete instance of `terminal_step_exit_direction`: the downward exit
of the interactive step fires the notification, the upward exit fires
nothing. -/
theorem terminal_step_exit_direction_witness :
    ExitEffect.showDataSourcesOverlay ∈ detentionStepExitEffects wDownExit ∧
    detentionStepExitEffects wUpExit = [] ∧
    handleStepExit wUpExit = [] := by
  refine ⟨?_, ?_, ?_⟩
  · exact ((terminal_step_exit_direction wDownExit).2.2.1 (by decide) rfl).2
  · exact (terminal_step_exit_direction wUpExit).2.2.2 rfl
  · exact (terminal_step_exit_direction wUpExit).2.1 rfl

theorem applyFlowToDest_destination (f : AggFlow) (e : DestAgg) :
    (applyFlowToDest f e).destination = e.destination := by
  dsimp only [applyFlowToDest]
  cases truthyStr f.originName <;> rfl

theorem applyFlowToDest_total (f : AggFlow) (e : DestAgg) :
    (applyFlowToDest f e).total = e.total + f.count := by
  dsimp only [applyFlowToDest]
  cases truthyStr f.originName <;> rfl

theorem finalizeDest_destination (e : DestAgg) :
    (finalizeDest e).destination = e.destination := rfl

theorem aggTotal_updateDest (f : AggFlow) (d name : String) (acc : List DestAgg) :
    aggTotal (updateDest f d acc) name =
      aggTotal acc name + (if d = name then f.count else 0) := by
  induction acc with
  | nil =>
    by_cases h : d = name
    · subst h
      simp [updateDest, aggTotal, List.find?_cons_of_pos, applyFlowToDest_destination,
        applyFlowToDest_total]
    · have hne : ((applyFlowToDest f
          { destination := d, total := 0, origins := [] }).destination = name) = False := by
        simp [applyFlowToDest_destination, h]
      simp [updateDest, aggTotal, List.find?_cons, hne, h]
  | cons e rest ih =>
    by_cases he : e.destination = d
    · by_cases hn : d = name
      · subst hn
        simp [updateDest, if_pos he, aggTotal, List.find?_cons,
          applyFlowToDest_destination, applyFlowToDest_total, he]
      · have h1 : ((applyFlowToDest f e).destination = name) = False := by
          simp [applyFlowToDest_destination, he, hn]
        have h2 : (e.destination = name) = False := by
          simp [he, hn]
        simp [updateDest, if_pos he, aggTotal, List.find?_cons, h1, h2, hn]
    · by_cases hen : e.destination = name
      · have hdn : ¬ d = name := fun h => he (hen.trans h.symm)
        have hnd : ¬ name = d := fun h => hdn h.symm
        simp [updateDest, if_neg he, aggTotal, List.find?_cons, hen, hdn, hnd]
      · simp only [updateDest, if_neg he]
        have h2 : (e.destination = name) = False := by simp [hen]
        simp only [aggTotal, List.find?_cons, h2] at ih ⊢
        simpa [aggTotal] using ih

theorem aggTotal_foldl (flows : List AggFlow) :
    ∀ (acc : List DestAgg) (name : String),
      aggTotal (flows.foldl aggStep acc) name =
        aggTotal acc name + sumCounts flows name := by
  induction flows with
  | nil => intro acc name; simp [sumCounts]
  | cons f fs ih =>
    intro acc name
    show aggTotal (fs.foldl aggStep (aggStep acc f)) name = _
    rw [ih]
    dsimp only [aggStep, sumCounts]
    cases h : truthyStr f.destName with
    | none => simp [h]
    | some d =>
      rw [aggTotal_updateDest]
      by_cases hd : d = name
      · subst hd
        simp [h]
        omega
      · have : (truthyStr f.destName = some name) = False := by
          simp [h, hd]
        simp [this, hd]

theorem destTotal_map_finalize (l : List DestAgg) (name : String) :
    destTotal (l.map finalizeDest) name = aggTotal l name := by
  induction l with
  | nil => rfl
  | cons e rest ih =>
    by_cases he : e.destination = name
    · simp [destTotal, aggTotal, List.find?_cons, finalizeDest_destination, he,
        finalizeDest]
    · have h1 : ((finalizeDest e).destination = name) = False := by
        simp [finalizeDest_destination, he]
      have h2 : (e.destination = name) = False := by simp [he]
      simp only [List.map_cons, destTotal, aggTotal, List.find?_cons, h1, h2] at ih ⊢
      simpa [destTotal, aggTotal] using ih

theorem mem_insertDesc {x a : OriginOut} :
    ∀ {l : List OriginOut}, x ∈ insertDesc a l → x = a ∨ x ∈ l := by
  intro l
  induction l with
  | nil =>
    intro h
    simpa [insertDesc] using h
  | cons b t ih =>
    intro h
    dsimp only [insertDesc] at h
    by_cases hc : b.count ≤ a.count
    · rw [if_pos hc] at h
      rcases List.mem_cons.mp h with h | h
      · exact Or.inl h
      · exact Or.inr h
    · rw [if_neg hc] at h
      rcases List.mem_cons.mp h with h | h
      · exact Or.inr (by simp [h])
      · rcases ih h with h1 | h1
        · exact Or.inl h1
        · exact Or.inr (by simp [h1])

theorem insertDesc_pairwise (a : OriginOut) :
    ∀ l : List OriginOut, l.Pairwise (fun x y => y.count ≤ x.count) →
      (insertDesc a l).Pairwise (fun x y => y.count ≤ x.count) := by
  intro l
  induction l with
  | nil => intro _; simp [insertDesc]
  | cons b t ih =>
    intro h
    rw [List.pairwise_cons] at h
    obtain ⟨hb, ht⟩ := h
    dsimp only [insertDesc]
    by_cases hc : b.count ≤ a.count
    · rw [if_pos hc, List.pairwise_cons]
      refine ⟨?_, List.pairwise_cons.mpr ⟨hb, ht⟩⟩
      intro x hx
      rcases List.mem_cons.mp hx with h1 | h1
      · subst h1
        exact hc
      · exact le_trans (hb x h1) hc
    · rw [if_neg hc, List.pairwise_cons]
      refine ⟨?_, ih ht⟩
      intro x hx
      rcases mem_insertDesc hx with h1 | h1
      · subst h1
        exact le_of_lt (not_le.mp hc)
      · exact hb x h1

theorem sortDesc_pairwise (l : List OriginOut) :
    (sortDesc l).Pairwise (fun x y => y.count ≤ x.count) := by
  induction l with
  | nil => simp [sortDesc]
  | cons a t ih => exact insertDesc_pairwise a (sortDesc t) ih

/-- C3: the aggregation groups flows by destination name, sums counts
exactly (`destTotal` of the output equals the exact per-destination sum for
every flow list), returns top origins sorted descending by count and
truncated to 5, keeps equal counts in first-seen order, and on the three
scenario records yields Mexico total 150 with CA 100 (66.7 percent), TX 50
(33.3 percent) and Guatemala total 30 with CA 30 (100.0 percent). -/
theorem aggregate_by_destination_correct :
    aggregateFlowsByDestination scenarioFlows = [mexicoOut, guatemalaOut] ∧
    (∀ (flows : List AggFlow) (name : String),
      destTotal (aggregateFlowsByDestination flows) name = sumCounts flows name) ∧
    (∀ (flows : List AggFlow) (e : DestOut),
      e ∈ aggregateFlowsByDestination flows →
      e.top_origins.length ≤ 5 ∧
      e.top_origins.Pairwise (fun x y => y.count ≤ x.count)) ∧
    aggregateFlowsByDestination tieFlows = [mexicoTieOut] := by
  refine ⟨by decide, ?_, ?_, by decide⟩
  · intro flows name
    rw [aggregateFlowsByDestination, destTotal_map_finalize, aggregate,
      aggTotal_foldl]
    simp [aggTotal]
  · intro flows e he
    rcases List.mem_map.mp he with ⟨a, _, rfl⟩
    constructor
    · show ((sortDesc _).take 5).length ≤ 5
      rw [List.length_take]
      exact min_le_left _ _
    · exact List.Pairwise.sublist (List.take_sublist 5 _) (sortDesc_pairwise _)

/-- Concrete instance of `aggregate_by_destination_correct`: the Mexico
entry of the scenario is in the output and its top-origins list is within
bounds and sorted. -/
theorem aggregate_by_destination_correct_witness :
    mexicoOut ∈ aggregateFlowsByDestination scenarioFlows ∧
    mexicoOut.top_origins.length ≤ 5 ∧
    mexicoOut.top_origins.Pairwise (fun x y => y.count ≤ x.count) := by
  have hm : mexicoOut ∈ aggregateFlowsByDestination scenarioFlows := by
    decide
  have h := aggregate_by_destination_correct.2.2.1 scenarioFlows mexicoOut hm
  exact ⟨hm, h.1, h.2⟩

end MigrDeport
